import Mathlib

/-!
Shallow embedding of the TCIM repository's CSV-to-grouped-aggregate pipeline.

Sources embedded:
* `src/agrupar_estudios.py` — `normalizar_texto`, `agrupar_estudios`
  (category `Counter` and per-category subcategory `Counter`s),
  `imprimir_resumen` (whose ordered view uses `Counter.most_common`),
  `leer_csv`, `main`.
* `src/grafico_interactivo_html.py` — the four-component `agrupar_estudios`
  (adds records-by-category and suitability-by-category), same
  `normalizar_texto` and `leer_csv`.
* `src/contar_lineas.py` — the `__main__` existence check.

Modelling conventions:
* A CSV row (Python `dict`) is an association list `Record`; `getField`
  models `dict.get` (first matching key, `none` when absent).
* Python `collections.Counter` is an insertion-ordered association list
  `List (String × Nat)`; `Counter[k] += 1` is `Counter.incr` (update the
  first entry with that key, append `(k, 1)` when absent — Python dict keys
  are unique and keep first-insertion order).
* `defaultdict` indexing (`d[k]` creating the default) is `updD`.
* `Counter.most_common()` is CPython's `sorted(items, key=count,
  reverse=True)`: a stable sort by descending count, embedded as the stable
  insertion sort `most_common` (any two stable sorts by the same key agree).
* Python `str.strip()` is `pyStrip`, dropping `Char.isWhitespace`
  characters from both ends of the character list.
* File I/O and `sys.exit(1)` are embedded with an abstract file system
  `FS` (does the file exist; what each `open(..., encoding=e,
  errors="replace")` + `csv.DictReader` attempt yields, `none` meaning the
  attempt raised) and the result type `RunResult` (`ok` or `exit code`).
-/

/-- A CSV row: association list from field name to raw text. -/
abbrev Record := List (String × String)

/-- `fila.get(campo)` on a Python dict: first matching key, else `None`. -/
def getField (fila : Record) (campo : String) : Option String :=
  (fila.find? (fun p => p.1 == campo)).map Prod.snd

/-- Characters removed by `str.strip()` (whitespace model). -/
def wsChar (c : Char) : Bool := c.isWhitespace

/-- Strip whitespace from both ends of a character list. -/
def stripList (l : List Char) : List Char :=
  ((l.dropWhile wsChar).reverse.dropWhile wsChar).reverse

/-- Python `valor.strip()`. -/
def pyStrip (s : String) : String := String.mk (stripList s.data)

/-- `normalizar_texto` from both scripts: `None` or blank-after-strip
becomes the placeholder, otherwise the stripped text. -/
def normalizar_texto (valor : Option String) (texto_vacio : String) : String :=
  match valor with
  | none => texto_vacio
  | some v =>
      let limpio := pyStrip v
      if limpio = "" then texto_vacio else limpio

def CATEGORY_FIELD : String := "Category"
def SUBCATEGORY_FIELD : String := "Subcategory"
def SUITABILITY_FIELD : String := "TCIM_suitability_level"
def ENCODINGS : List String :=
  ["utf-8", "latin-1", "iso-8859-1", "cp1252", "utf-8-sig"]

/-- The normalized category of a row (`categoria` in both scripts). -/
def normCat (fila : Record) : String :=
  normalizar_texto (getField fila CATEGORY_FIELD) "Sin categoría"

/-- The normalized subcategory of a row (`subcategoria`). -/
def normSub (fila : Record) : String :=
  normalizar_texto (getField fila SUBCATEGORY_FIELD) "Sin subcategoría"

/-- The normalized suitability level of a row (`suitability`,
interactive script only). -/
def normSuit (fila : Record) : String :=
  normalizar_texto (getField fila SUITABILITY_FIELD) "Not applicable"

/-- Insertion-ordered association list with update-in-place of the first
matching key, appending `(k, f emp)` when the key is absent: Python
`defaultdict` indexing followed by a mutation `f`. -/
def updD {α : Type} (emp : α) (k : String) (f : α → α) :
    List (String × α) → List (String × α)
  | [] => [(k, f emp)]
  | p :: d => if p.1 = k then (p.1, f p.2) :: d else p :: updD emp k f d

/-- Dictionary lookup with a default for absent keys (first matching
entry, like a Python dict whose keys are unique). -/
def lookupD {α : Type} (emp : α) : List (String × α) → String → α
  | [], _ => emp
  | p :: d, k => if p.1 = k then p.2 else lookupD emp d k

/-- Python `collections.Counter` over strings, insertion-ordered. -/
abbrev Counter := List (String × Nat)

/-- `counter[k] += 1`. -/
def Counter.incr (c : Counter) (k : String) : Counter :=
  updD 0 k (· + 1) c

/-- `counter[k]` (0 for absent keys). -/
def Counter.getD (c : Counter) (k : String) : Nat := lookupD 0 c k

/-- `sum(counter.values())`. -/
def Counter.total (c : Counter) : Nat := (c.map Prod.snd).sum

/-- Build a `Counter` by incrementing once per list element. -/
def Counter.buildFrom (l : List String) : Counter :=
  l.foldl Counter.incr []

/-- Stable insertion (descending by count) used by `most_common`:
the inserted element goes before every strictly smaller count and after
every earlier element with a count at least as large. -/
def insertByCount (x : String × Nat) : List (String × Nat) → List (String × Nat)
  | [] => [x]
  | y :: ys => if y.2 ≤ x.2 then x :: y :: ys else y :: insertByCount x ys

/-- `Counter.most_common()`: CPython's stable sort of the items by
descending count (`sorted(items, key=itemgetter(1), reverse=True)`). -/
def most_common (c : Counter) : List (String × Nat) :=
  c.foldr insertByCount []

/-- First-seen deduplication: the key order a Python dict acquires when fed
this list of keys. -/
def firstSeen (l : List String) : List String :=
  l.foldl (fun acc k => if k ∈ acc then acc else acc ++ [k]) []

namespace AgruparEstudios

def CSV_FILE : String := "este_TCIM_195_scored_final.csv"

/-- Accumulator of `agrupar_estudios` in `agrupar_estudios.py`:
`categorias` and `subcategorias_por_categoria`. -/
structure Agg where
  categorias : Counter
  subcategorias : List (String × Counter)
deriving DecidableEq

/-- One loop iteration of `agrupar_estudios` (`agrupar_estudios.py`). -/
def step (st : Agg) (fila : Record) : Agg :=
  { categorias := st.categorias.incr (normCat fila),
    subcategorias :=
      updD [] (normCat fila) (fun c : Counter => c.incr (normSub fila)) st.subcategorias }

/-- `agrupar_estudios(filas)` from `agrupar_estudios.py`. -/
def agrupar_estudios (filas : List Record) : Agg :=
  filas.foldl step ⟨[], []⟩

/-- The ordered view `imprimir_resumen` iterates over: categories by
`most_common`, and inside each category its subcategories by
`most_common`. -/
def imprimir_resumen_view (st : Agg) :
    List (String × Nat) × List (String × List (String × Nat)) :=
  (most_common st.categorias,
   (most_common st.categorias).map
     (fun p => (p.1, most_common (lookupD [] st.subcategorias p.1))))

end AgruparEstudios

namespace GraficoInteractivo

def CSV_FILE : String := "data/este_TCIM_195_scored_final.csv"

/-- Accumulator of `agrupar_estudios` in `grafico_interactivo_html.py`:
`categorias`, `subcategorias_por_categoria`, `estudios_por_categoria`,
`suitability_por_categoria`. -/
structure Agg where
  categorias : Counter
  subcategorias : List (String × Counter)
  estudios : List (String × List Record)
  suitability : List (String × Counter)
deriving DecidableEq

/-- One loop iteration of `agrupar_estudios` (`grafico_interactivo_html.py`). -/
def step (st : Agg) (fila : Record) : Agg :=
  { categorias := st.categorias.incr (normCat fila),
    subcategorias :=
      updD [] (normCat fila) (fun c : Counter => c.incr (normSub fila)) st.subcategorias,
    estudios := updD [] (normCat fila) (fun l => l ++ [fila]) st.estudios,
    suitability :=
      updD [] (normCat fila) (fun c : Counter => c.incr (normSuit fila)) st.suitability }

/-- `agrupar_estudios(filas)` from `grafico_interactivo_html.py`. -/
def agrupar_estudios (filas : List Record) : Agg :=
  filas.foldl step ⟨[], [], [], []⟩

end GraficoInteractivo

/-- Truth of "the field value is `None` or blank after stripping". -/
def isBlank (valor : Option String) : Bool :=
  match valor with
  | none => true
  | some v => pyStrip v == ""

/-- A record field that is absent, empty, or whitespace-only. -/
def isBlankField (fila : Record) (campo : String) : Bool :=
  isBlank (getField fila campo)

/-- Result of running a script fragment: a normal value, or the process
terminated through `sys.exit(code)`. An `exit` result carries no data, so
no aggregation output or output file is produced on that path. -/
inductive RunResult (α : Type) where
  | ok : α → RunResult α
  | exit : Nat → RunResult α
deriving DecidableEq

/-- Abstract environment for the readers: whether a path exists
(`os.path.exists`), and what `open(path, "r", encoding=enc,
errors="replace")` followed by `list(csv.DictReader(f))` yields for each
path and encoding — `some rows` when the attempt returns, `none` when it
raises and the `except` clause moves on to the next encoding. Every
attempt already decodes permissively (`errors="replace"` substitutes
replacement characters for undecodable bytes instead of raising). -/
structure FS where
  existsFile : String → Bool
  decodeReplace : String → String → Option (List Record)

/-- The encoding loop of `leer_csv`: try each encoding in order and return
the rows of the first attempt that does not raise; exit fatally when every
attempt raised. -/
def intentarCodificaciones (fs : FS) (archivo : String) :
    List String → RunResult (List Record)
  | [] => .exit 1
  | enc :: rest =>
      match fs.decodeReplace archivo enc with
      | some filas => .ok filas
      | none => intentarCodificaciones fs archivo rest

/-- `leer_csv` (identical in `agrupar_estudios.py` and
`grafico_interactivo_html.py`): exit 1 when the file does not exist,
otherwise run the encoding loop. -/
def leer_csv (fs : FS) (archivo : String) : RunResult (List Record) :=
  if fs.existsFile archivo then intentarCodificaciones fs archivo ENCODINGS
  else .exit 1

namespace AgruparEstudios

/-- The output `main` produces on its normal path. -/
inductive MainOutput where
  | sinDatos : MainOutput
  | resumen : List (String × Nat) × List (String × List (String × Nat)) →
      MainOutput
deriving DecidableEq

/-- `main` of `agrupar_estudios.py`: read the CSV (which may exit), return
early when there are no rows, otherwise aggregate and print the summary.
An `exit` result of `leer_csv` propagates before any aggregation. -/
def main (fs : FS) : RunResult MainOutput :=
  match leer_csv fs CSV_FILE with
  | .exit c => .exit c
  | .ok filas =>
      if filas.isEmpty then .ok .sinDatos
      else .ok (.resumen (imprimir_resumen_view (agrupar_estudios filas)))

end AgruparEstudios

namespace ContarLineas

def ARCHIVO : String := "este_TCIM_195_scored_final.csv"

/-- The `__main__` block of `contar_lineas.py`: check `os.path.exists` and
exit 1 when the file is missing, before any counting (`contar` abstracts
`contar_lineas_csv`). -/
def mainBlock (fs : FS) (contar : String → RunResult Nat) : RunResult Nat :=
  if fs.existsFile ARCHIVO then contar ARCHIVO else .exit 1

end ContarLineas

/-- The three example rows of the spec's §8 example. -/
def filasEjemplo : List Record :=
  [[("Category", "AI"), ("Subcategory", "NLP")],
   [("Category", "AI"), ("Subcategory", "Vision")],
   [("Category", ""), ("Subcategory", "X")]]

/-- A file system in which no path exists. -/
def fsAusente : FS := ⟨fun _ => false, fun _ _ => none⟩

/-- A file system in which every path exists but every read attempt
raises. -/
def fsIlegible : FS := ⟨fun _ => true, fun _ _ => none⟩

section DictLemmas

variable {α : Type}

theorem lookupD_updD (emp : α) (k : String) (f : α → α)
    (d : List (String × α)) (c : String) :
    lookupD emp (updD emp k f d) c =
      if c = k then f (lookupD emp d c) else lookupD emp d c := by
  induction d with
  | nil =>
      by_cases h : c = k
      · simp [updD, lookupD, h]
      · have h' : ¬ k = c := fun hh => h hh.symm
        simp [updD, lookupD, h, h']
  | cons p d ih =>
      by_cases hpk : p.1 = k
      · by_cases hpc : p.1 = c
        · have hck : c = k := hpc.symm.trans hpk
          simp [updD, lookupD, hpk, hpc, hck]
        · have hck : ¬ c = k := fun hh => hpc (hpk.trans hh.symm)
          have hkc : ¬ k = c := fun hh => hck hh.symm
          simp [updD, lookupD, hpk, hpc, hck, hkc]
      · by_cases hpc : p.1 = c
        · have hck : ¬ c = k := fun hh => hpk (hpc.trans hh)
          simp [updD, lookupD, hpk, hpc, hck]
        · simp [updD, lookupD, hpk, hpc, ih]

theorem keys_updD (emp : α) (k : String) (f : α → α)
    (d : List (String × α)) :
    (updD emp k f d).map Prod.fst =
      if k ∈ d.map Prod.fst then d.map Prod.fst
      else d.map Prod.fst ++ [k] := by
  induction d with
  | nil => simp [updD]
  | cons p d ih =>
      by_cases hpk : p.1 = k
      · subst hpk
        simp [updD]
      · have hkp : ¬ k = p.1 := fun hh => hpk hh.symm
        by_cases hk : k ∈ d.map Prod.fst <;>
          simp [updD, hpk, ih, hk, hkp]

/-- Lookup through a left fold of `updD` updates: only the elements whose
key equals the looked-up key act, in order, on the default-or-existing
value. -/
theorem lookupD_foldl_updD {β : Type} (emp : α) (key : β → String)
    (g : β → α → α) (l : List β) (d : List (String × α)) (c : String) :
    lookupD emp (l.foldl (fun d b => updD emp (key b) (g b) d) d) c =
      (l.filter (fun b => key b = c)).foldl (fun a b => g b a)
        (lookupD emp d c) := by
  induction l generalizing d with
  | nil => simp
  | cons b l ih =>
      by_cases h : key b = c
      · simp only [List.foldl_cons, ih, List.filter_cons]
        simp [h, lookupD_updD]
      · have : ¬ c = key b := fun hh => h hh.symm
        simp only [List.foldl_cons, ih, List.filter_cons]
        simp [h, lookupD_updD, this]

/-- Key list through a left fold of `updD` updates: each new key is
appended at first occurrence. -/
theorem keys_foldl_updD {β : Type} (emp : α) (key : β → String)
    (g : β → α → α) (l : List β) (d : List (String × α)) :
    (l.foldl (fun d b => updD emp (key b) (g b) d) d).map Prod.fst =
      (l.map key).foldl
        (fun acc k => if k ∈ acc then acc else acc ++ [k])
        (d.map Prod.fst) := by
  induction l generalizing d with
  | nil => simp
  | cons b l ih =>
      simp only [List.foldl_cons, List.map_cons, ih, keys_updD]

end DictLemmas

section CounterLemmas

theorem Counter.getD_incr (c : Counter) (k a : String) :
    (c.incr k).getD a = if a = k then c.getD a + 1 else c.getD a :=
  lookupD_updD 0 k (· + 1) c a

theorem Counter.total_cons (p : String × Nat) (c : Counter) :
    Counter.total (p :: c) = p.2 + Counter.total c := by
  simp [Counter.total]

theorem Counter.total_incr (c : Counter) (k : String) :
    (c.incr k).total = c.total + 1 := by
  simp only [Counter.incr]
  induction c with
  | nil => simp [updD, Counter.total]
  | cons p c ih =>
      by_cases h : p.1 = k
      · simp only [updD, if_pos h, Counter.total_cons]
        omega
      · simp only [updD, if_neg h, Counter.total_cons, ih]
        omega

theorem Counter.getD_foldl_incr (l : List String) (c : Counter) (k : String) :
    (l.foldl Counter.incr c).getD k = c.getD k + l.count k := by
  induction l generalizing c with
  | nil => simp
  | cons a l ih =>
      simp only [List.foldl_cons, ih, Counter.getD_incr, List.count_cons]
      by_cases h : k = a
      · simp [h]
        omega
      · have ha : ¬ a = k := fun hh => h hh.symm
        simp [h, ha]

theorem Counter.total_foldl_incr (l : List String) (c : Counter) :
    (l.foldl Counter.incr c).total = c.total + l.length := by
  induction l generalizing c with
  | nil => simp
  | cons a l ih =>
      simp only [List.foldl_cons, ih, Counter.total_incr, List.length_cons]
      omega

theorem Counter.keys_incr (c : Counter) (k : String) :
    (c.incr k).map Prod.fst =
      if k ∈ c.map Prod.fst then c.map Prod.fst
      else c.map Prod.fst ++ [k] :=
  keys_updD 0 k (· + 1) c

theorem Counter.keys_foldl_incr (l : List String) (c : Counter) :
    (l.foldl Counter.incr c).map Prod.fst =
      l.foldl (fun acc k => if k ∈ acc then acc else acc ++ [k])
        (c.map Prod.fst) := by
  induction l generalizing c with
  | nil => simp
  | cons a l ih =>
      simp only [List.foldl_cons, ih, Counter.keys_incr]

theorem Counter.getD_buildFrom (l : List String) (k : String) :
    (Counter.buildFrom l).getD k = l.count k := by
  simpa [Counter.buildFrom, Counter.getD, lookupD] using
    Counter.getD_foldl_incr l [] k

theorem Counter.total_buildFrom (l : List String) :
    (Counter.buildFrom l).total = l.length := by
  simpa [Counter.buildFrom, Counter.total] using Counter.total_foldl_incr l []

theorem Counter.keys_buildFrom (l : List String) :
    (Counter.buildFrom l).map Prod.fst = firstSeen l := by
  simpa [Counter.buildFrom, firstSeen] using Counter.keys_foldl_incr l []

end CounterLemmas

section SortLemmas

theorem mem_insertByCount (x a : String × Nat) (l : List (String × Nat))
    (h : a ∈ insertByCount x l) : a = x ∨ a ∈ l := by
  induction l with
  | nil =>
      simp [insertByCount] at h
      exact Or.inl h
  | cons y ys ih =>
      by_cases hle : y.2 ≤ x.2
      · simp only [insertByCount, if_pos hle] at h
        rcases List.mem_cons.mp h with rfl | h
        · exact Or.inl rfl
        · exact Or.inr h
      · simp only [insertByCount, if_neg hle] at h
        rcases List.mem_cons.mp h with rfl | h
        · exact Or.inr (List.mem_cons_self _ _)
        · rcases ih h with h | h
          · exact Or.inl h
          · exact Or.inr (List.mem_cons_of_mem _ h)

theorem pairwise_insertByCount (x : String × Nat) (l : List (String × Nat))
    (hl : l.Pairwise (fun a b => b.2 ≤ a.2)) :
    (insertByCount x l).Pairwise (fun a b => b.2 ≤ a.2) := by
  induction l with
  | nil => simp [insertByCount]
  | cons y ys ih =>
      obtain ⟨hy, hys⟩ := List.pairwise_cons.mp hl
      by_cases h : y.2 ≤ x.2
      · simp only [insertByCount, if_pos h]
        refine List.pairwise_cons.mpr ⟨?_, hl⟩
        intro b hb
        rcases List.mem_cons.mp hb with rfl | hb
        · exact h
        · exact le_trans (hy b hb) h
      · simp only [insertByCount, if_neg h]
        refine List.pairwise_cons.mpr ⟨?_, ih hys⟩
        intro b hb
        rcases mem_insertByCount x b ys hb with rfl | hb
        · exact le_of_not_le h
        · exact hy b hb

theorem sorted_most_common (c : Counter) :
    (most_common c).Pairwise (fun a b => b.2 ≤ a.2) := by
  induction c with
  | nil => simp [most_common]
  | cons x xs ih => exact pairwise_insertByCount x (most_common xs) ih

theorem filter_insertByCount (n : Nat) (x : String × Nat)
    (l : List (String × Nat)) :
    (insertByCount x l).filter (fun p => p.2 = n) =
      if x.2 = n then x :: l.filter (fun p => p.2 = n)
      else l.filter (fun p => p.2 = n) := by
  induction l with
  | nil =>
      by_cases hx : x.2 = n <;> simp [insertByCount, hx]
  | cons y ys ih =>
      by_cases h : y.2 ≤ x.2
      · simp only [insertByCount, if_pos h]
        by_cases hx : x.2 = n <;> by_cases hy : y.2 = n <;>
          simp [hx, hy, List.filter_cons]
      · simp only [insertByCount, if_neg h, List.filter_cons, ih]
        by_cases hx : x.2 = n
        · have hy : ¬ y.2 = n := by omega
          simp [hx, hy]
        · by_cases hy : y.2 = n <;> simp [hx, hy]

theorem filter_most_common (c : Counter) (n : Nat) :
    (most_common c).filter (fun p => p.2 = n) =
      c.filter (fun p => p.2 = n) := by
  induction c with
  | nil => rfl
  | cons x xs ih =>
      show (insertByCount x (most_common xs)).filter _ = _
      rw [filter_insertByCount]
      by_cases hx : x.2 = n <;> simp [hx, ih, List.filter_cons]

end SortLemmas

theorem foldl_append_singleton {γ : Type} (l acc : List γ) :
    l.foldl (fun a x => a ++ [x]) acc = acc ++ l := by
  induction l generalizing acc with
  | nil => simp
  | cons x xs ih => simp [ih]

namespace AgruparEstudios

theorem categorias_foldl (filas : List Record) (st : Agg) :
    (filas.foldl step st).categorias =
      (filas.map normCat).foldl Counter.incr st.categorias := by
  induction filas generalizing st with
  | nil => rfl
  | cons f fs ih => simp only [List.foldl_cons, List.map_cons, ih, step]

theorem agrupar_categorias (filas : List Record) :
    (agrupar_estudios filas).categorias =
      Counter.buildFrom (filas.map normCat) := by
  simpa [agrupar_estudios, Counter.buildFrom] using categorias_foldl filas ⟨[], []⟩

theorem subcategorias_foldl (filas : List Record) (st : Agg) :
    (filas.foldl step st).subcategorias =
      filas.foldl
        (fun d f => updD [] (normCat f) (fun c : Counter => c.incr (normSub f)) d)
        st.subcategorias := by
  induction filas generalizing st with
  | nil => rfl
  | cons f fs ih => simp only [List.foldl_cons, ih, step]

theorem lookup_subcategorias (filas : List Record) (c : String) :
    lookupD [] (agrupar_estudios filas).subcategorias c =
      Counter.buildFrom
        ((filas.filter (fun f => normCat f = c)).map normSub) := by
  rw [agrupar_estudios, subcategorias_foldl]
  rw [lookupD_foldl_updD [] normCat (fun f (c : Counter) => c.incr (normSub f)) filas [] c]
  simp [Counter.buildFrom, List.foldl_map, lookupD]

theorem keys_subcategorias (filas : List Record) :
    (agrupar_estudios filas).subcategorias.map Prod.fst =
      firstSeen (filas.map normCat) := by
  rw [agrupar_estudios, subcategorias_foldl]
  rw [keys_foldl_updD [] normCat (fun f (c : Counter) => c.incr (normSub f)) filas []]
  simp [firstSeen]

end AgruparEstudios

namespace GraficoInteractivo

theorem categorias_foldl4 (filas : List Record) (st : Agg) :
    (filas.foldl step st).categorias =
      (filas.map normCat).foldl Counter.incr st.categorias := by
  induction filas generalizing st with
  | nil => rfl
  | cons f fs ih => simp only [List.foldl_cons, List.map_cons, ih, step]

theorem agrupar_categorias4 (filas : List Record) :
    (agrupar_estudios filas).categorias =
      Counter.buildFrom (filas.map normCat) := by
  simpa [agrupar_estudios, Counter.buildFrom] using
    categorias_foldl4 filas ⟨[], [], [], []⟩

theorem subcategorias_foldl4 (filas : List Record) (st : Agg) :
    (filas.foldl step st).subcategorias =
      filas.foldl
        (fun d f => updD [] (normCat f) (fun c : Counter => c.incr (normSub f)) d)
        st.subcategorias := by
  induction filas generalizing st with
  | nil => rfl
  | cons f fs ih => simp only [List.foldl_cons, ih, step]

theorem lookup_subcategorias4 (filas : List Record) (c : String) :
    lookupD [] (agrupar_estudios filas).subcategorias c =
      Counter.buildFrom
        ((filas.filter (fun f => normCat f = c)).map normSub) := by
  rw [agrupar_estudios, subcategorias_foldl4]
  rw [lookupD_foldl_updD [] normCat (fun f (c : Counter) => c.incr (normSub f)) filas [] c]
  simp [Counter.buildFrom, List.foldl_map, lookupD]

theorem keys_subcategorias4 (filas : List Record) :
    (agrupar_estudios filas).subcategorias.map Prod.fst =
      firstSeen (filas.map normCat) := by
  rw [agrupar_estudios, subcategorias_foldl4]
  rw [keys_foldl_updD [] normCat (fun f (c : Counter) => c.incr (normSub f)) filas []]
  simp [firstSeen]

theorem estudios_foldl (filas : List Record) (st : Agg) :
    (filas.foldl step st).estudios =
      filas.foldl
        (fun d f => updD [] (normCat f) (fun l : List Record => l ++ [f]) d)
        st.estudios := by
  induction filas generalizing st with
  | nil => rfl
  | cons f fs ih => simp only [List.foldl_cons, ih, step]

theorem lookup_estudios (filas : List Record) (c : String) :
    lookupD [] (agrupar_estudios filas).estudios c =
      filas.filter (fun f => normCat f = c) := by
  rw [agrupar_estudios, estudios_foldl]
  rw [lookupD_foldl_updD [] normCat (fun f (l : List Record) => l ++ [f]) filas [] c]
  simp [lookupD, foldl_append_singleton]

theorem keys_estudios (filas : List Record) :
    (agrupar_estudios filas).estudios.map Prod.fst =
      firstSeen (filas.map normCat) := by
  rw [agrupar_estudios, estudios_foldl]
  rw [keys_foldl_updD [] normCat (fun f (l : List Record) => l ++ [f]) filas []]
  simp [firstSeen]

theorem suitability_foldl (filas : List Record) (st : Agg) :
    (filas.foldl step st).suitability =
      (filas.map (fun f => (normCat f, normSuit f))).foldl
        (fun d p => updD [] p.1 (fun c : Counter => c.incr p.2) d)
        st.suitability := by
  induction filas generalizing st with
  | nil => rfl
  | cons f fs ih => simp only [List.foldl_cons, List.map_cons, ih, step]

/-- The suitability counts depend on the rows only through the pairs
(normalized category, normalized suitability). -/
theorem suitability_eq_of_pairs (filas filas' : List Record)
    (h : filas.map (fun f => (normCat f, normSuit f)) =
         filas'.map (fun f => (normCat f, normSuit f))) :
    (agrupar_estudios filas).suitability =
      (agrupar_estudios filas').suitability := by
  rw [agrupar_estudios, agrupar_estudios, suitability_foldl,
    suitability_foldl, h]

end GraficoInteractivo

section StripLemmas

theorem dropWhile_head_false {γ : Type} (p : γ → Bool) (l : List γ)
    (x : γ) (xs : List γ) (h : l.dropWhile p = x :: xs) : p x = false := by
  induction l with
  | nil => simp [List.dropWhile] at h
  | cons a l ih =>
      by_cases ha : p a
      · rw [List.dropWhile_cons, if_pos ha] at h
        exact ih h
      · rw [List.dropWhile_cons, if_neg ha] at h
        cases h
        exact Bool.eq_false_iff.mpr ha

theorem dropWhile_idem {γ : Type} (p : γ → Bool) (l : List γ) :
    (l.dropWhile p).dropWhile p = l.dropWhile p := by
  cases h : l.dropWhile p with
  | nil => simp
  | cons x xs =>
      have hx := dropWhile_head_false p l x xs h
      simp [List.dropWhile_cons, hx]

/-- The stripped list is a prefix of the left-stripped list. -/
theorem exists_append_stripList (l : List Char) :
    ∃ t, l.dropWhile wsChar = stripList l ++ t := by
  refine ⟨((l.dropWhile wsChar).reverse.takeWhile wsChar).reverse, ?_⟩
  have h := List.takeWhile_append_dropWhile
    wsChar (l.dropWhile wsChar).reverse
  have h2 := congrArg List.reverse h
  rw [List.reverse_append, List.reverse_reverse] at h2
  exact h2.symm

theorem stripList_no_leading (l : List Char) :
    (stripList l).dropWhile wsChar = stripList l := by
  cases hr : stripList l with
  | nil => simp
  | cons x xs =>
      obtain ⟨t, ht⟩ := exists_append_stripList l
      rw [hr] at ht
      have hx : wsChar x = false :=
        dropWhile_head_false wsChar l x (xs ++ t) (by simpa using ht)
      simp [List.dropWhile_cons, hx]

theorem stripList_idem (l : List Char) :
    stripList (stripList l) = stripList l := by
  have h1 := stripList_no_leading l
  have h2 : (stripList l).reverse.dropWhile wsChar = (stripList l).reverse := by
    simp [stripList, dropWhile_idem]
  show (((stripList l).dropWhile wsChar).reverse.dropWhile wsChar).reverse = stripList l
  rw [h1, h2]
  simp

theorem pyStrip_idem (s : String) : pyStrip (pyStrip s) = pyStrip s := by
  show String.mk (stripList (stripList s.data)) = String.mk (stripList s.data)
  rw [stripList_idem]

end StripLemmas

section NormalizarLemmas

theorem normalizar_texto_of_blank (valor : Option String) (t : String)
    (h : isBlank valor = true) : normalizar_texto valor t = t := by
  cases valor with
  | none => rfl
  | some v =>
      simp [isBlank] at h
      simp [normalizar_texto, h]

theorem normalizar_texto_eq_default_or_strip (valor : Option String)
    (t : String) :
    normalizar_texto valor t = t ∨
      ∃ v, valor = some v ∧ normalizar_texto valor t = pyStrip v ∧
        pyStrip v ≠ "" := by
  cases valor with
  | none => exact Or.inl rfl
  | some v =>
      by_cases h : pyStrip v = ""
      · exact Or.inl (by simp [normalizar_texto, h])
      · exact Or.inr ⟨v, rfl, by simp [normalizar_texto, h], h⟩

/-- Any value produced by `normalizar_texto` with a trimmed, non-empty
placeholder is itself trimmed and non-empty. -/
theorem normalizar_texto_trimmed (valor : Option String) (t : String)
    (ht : t ≠ "" ∧ pyStrip t = t) :
    normalizar_texto valor t ≠ "" ∧
      pyStrip (normalizar_texto valor t) = normalizar_texto valor t := by
  rcases normalizar_texto_eq_default_or_strip valor t with h | ⟨v, _, he, hne⟩
  · rw [h]; exact ht
  · rw [he]; exact ⟨hne, pyStrip_idem v⟩

end NormalizarLemmas

section FirstSeenLemmas

theorem mem_firstSeen_foldl (l : List String) (acc : List String) (k : String)
    (h : k ∈ l.foldl (fun acc k => if k ∈ acc then acc else acc ++ [k]) acc) :
    k ∈ acc ∨ k ∈ l := by
  induction l generalizing acc with
  | nil => exact Or.inl h
  | cons a l ih =>
      simp only [List.foldl_cons] at h
      rcases ih _ h with h' | h'
      · by_cases ha : a ∈ acc
        · rw [if_pos ha] at h'
          exact Or.inl h'
        · rw [if_neg ha] at h'
          rcases List.mem_append.mp h' with h'' | h''
          · exact Or.inl h''
          · simp at h''
            subst h''
            exact Or.inr (List.mem_cons_self _ _)
      · exact Or.inr (List.mem_cons_of_mem _ h')

theorem mem_firstSeen (l : List String) (k : String)
    (h : k ∈ firstSeen l) : k ∈ l := by
  rcases mem_firstSeen_foldl l [] k h with h' | h'
  · simp at h'
  · exact h'

end FirstSeenLemmas

theorem count_map_eq_length_filter {γ : Type} [DecidableEq γ]
    (l : List γ) (g : γ → String) (c : String) :
    (l.map g).count c = (l.filter (fun f => g f = c)).length := by
  induction l with
  | nil => rfl
  | cons f fs ih =>
      simp only [List.map_cons, List.count_cons, List.filter_cons]
      by_cases h : g f = c
      · simp [h, ih]
      · simp [h, ih]

section IOModel

theorem intentarCodificaciones_all_fail (fs : FS) (archivo : String)
    (encs : List String)
    (h : ∀ e ∈ encs, fs.decodeReplace archivo e = none) :
    intentarCodificaciones fs archivo encs = .exit 1 := by
  induction encs with
  | nil => rfl
  | cons e rest ih =>
      have he := h e (List.mem_cons_self _ _)
      have hrest := ih (fun x hx => h x (List.mem_cons_of_mem _ hx))
      simp [intentarCodificaciones, he, hrest]

theorem intentarCodificaciones_first_success (fs : FS) (archivo : String)
    (encs : List String) (enc : String) (filas : List Record)
    (hfind : encs.find? (fun e => (fs.decodeReplace archivo e).isSome) = some enc)
    (hdec : fs.decodeReplace archivo enc = some filas) :
    intentarCodificaciones fs archivo encs = .ok filas := by
  induction encs with
  | nil => simp at hfind
  | cons e rest ih =>
      by_cases hs : (fs.decodeReplace archivo e).isSome
      · have he : e = enc := by
          simp [hs] at hfind
          exact hfind
        subst he
        simp [intentarCodificaciones, hdec]
      · have hnone : fs.decodeReplace archivo e = none := by
          cases hh : fs.decodeReplace archivo e with
          | none => rfl
          | some v => rw [hh] at hs; simp at hs
        simp [hnone] at hfind
        simp [intentarCodificaciones, hnone, ih hfind]

end IOModel

/-- Claim C4: on the three example rows, aggregation yields category counts
AI ↦ 2, "Sin categoría" ↦ 1 (and no other categories), and the AI
subcategory counts NLP ↦ 1, Vision ↦ 1. -/
theorem C4_example :
    (AgruparEstudios.agrupar_estudios filasEjemplo).categorias =
      [("AI", 2), ("Sin categoría", 1)] ∧
    lookupD [] (AgruparEstudios.agrupar_estudios filasEjemplo).subcategorias "AI" =
      [("NLP", 1), ("Vision", 1)] := by
  constructor <;> rfl

/-- Claim C1: for every input sequence, the interactive script's
aggregation returns mappings in which the category counts sum to the
number of input rows, and every category's subcategory counts sum to its
category count, which equals the length of its record list. -/
theorem C1_counts_consistent (filas : List Record) :
    Counter.total (GraficoInteractivo.agrupar_estudios filas).categorias =
      filas.length ∧
    ∀ c : String,
      Counter.getD (GraficoInteractivo.agrupar_estudios filas).categorias c =
        Counter.total
          (lookupD []
            (GraficoInteractivo.agrupar_estudios filas).subcategorias c) ∧
      Counter.getD (GraficoInteractivo.agrupar_estudios filas).categorias c =
        (lookupD []
          (GraficoInteractivo.agrupar_estudios filas).estudios c).length := by
  refine ⟨?_, fun c => ⟨?_, ?_⟩⟩
  · rw [GraficoInteractivo.agrupar_categorias4, Counter.total_buildFrom,
      List.length_map]
  · rw [GraficoInteractivo.agrupar_categorias4, Counter.getD_buildFrom,
      GraficoInteractivo.lookup_subcategorias4, Counter.total_buildFrom,
      List.length_map, count_map_eq_length_filter]
  · rw [GraficoInteractivo.agrupar_categorias4, Counter.getD_buildFrom,
      GraficoInteractivo.lookup_estudios, count_map_eq_length_filter]

/-- Claim C5: the records-by-category mapping sends every category to
exactly the input subsequence of rows normalizing to it, in input order;
and the key lists of all returned mappings are exactly the observed
categories (respectively, observed subcategories within each category) in
first-seen order — no pre-seeded empty buckets. -/
theorem C5_records_by_category (filas : List Record) :
    (∀ c : String,
      lookupD [] (GraficoInteractivo.agrupar_estudios filas).estudios c =
        filas.filter (fun f => normCat f = c)) ∧
    (GraficoInteractivo.agrupar_estudios filas).categorias.map Prod.fst =
      firstSeen (filas.map normCat) ∧
    (GraficoInteractivo.agrupar_estudios filas).subcategorias.map Prod.fst =
      firstSeen (filas.map normCat) ∧
    (GraficoInteractivo.agrupar_estudios filas).estudios.map Prod.fst =
      firstSeen (filas.map normCat) ∧
    (∀ c : String,
      (lookupD []
          (GraficoInteractivo.agrupar_estudios filas).subcategorias c).map
        Prod.fst =
      firstSeen ((filas.filter (fun f => normCat f = c)).map normSub)) := by
  refine ⟨fun c => GraficoInteractivo.lookup_estudios filas c, ?_,
    GraficoInteractivo.keys_subcategorias4 filas,
    GraficoInteractivo.keys_estudios filas, fun c => ?_⟩
  · rw [GraficoInteractivo.agrupar_categorias4, Counter.keys_buildFrom]
  · rw [GraficoInteractivo.lookup_subcategorias4, Counter.keys_buildFrom]

/-- Claim C2: for any record of the input, if its Category field is
absent, empty, or blank after stripping, it normalizes to the placeholder
category and is counted there exactly once (the placeholder category count
equals the number of rows normalizing to it, one per row) — independently
of its Subcategory; if its Subcategory field is blank, it is counted
exactly once under the placeholder subcategory of whatever category it
normalizes to; and aggregation never fails on malformed or missing
fields: every row is counted, so the total equals the input length. -/
theorem C2_blank_placeholder (filas : List Record) (fila : Record)
    (hmem : fila ∈ filas) :
    (isBlankField fila CATEGORY_FIELD = true →
      normCat fila = "Sin categoría" ∧
      Counter.getD (AgruparEstudios.agrupar_estudios filas).categorias
          "Sin categoría" =
        (filas.filter (fun f => normCat f = "Sin categoría")).length ∧
      1 ≤ Counter.getD (AgruparEstudios.agrupar_estudios filas).categorias
          "Sin categoría") ∧
    (isBlankField fila SUBCATEGORY_FIELD = true →
      normSub fila = "Sin subcategoría" ∧
      Counter.getD
          (lookupD []
            (AgruparEstudios.agrupar_estudios filas).subcategorias
            (normCat fila)) "Sin subcategoría" =
        ((filas.filter (fun f => normCat f = normCat fila)).filter
          (fun f => normSub f = "Sin subcategoría")).length ∧
      1 ≤ Counter.getD
          (lookupD []
            (AgruparEstudios.agrupar_estudios filas).subcategorias
            (normCat fila)) "Sin subcategoría") ∧
    Counter.total (AgruparEstudios.agrupar_estudios filas).categorias =
      filas.length := by
  refine ⟨fun hcat => ?_, fun hsub => ?_, ?_⟩
  · have hnc : normCat fila = "Sin categoría" :=
      normalizar_texto_of_blank _ _ hcat
    have hcount :
        Counter.getD (AgruparEstudios.agrupar_estudios filas).categorias
          "Sin categoría" =
        (filas.filter (fun f => normCat f = "Sin categoría")).length := by
      rw [AgruparEstudios.agrupar_categorias, Counter.getD_buildFrom,
        count_map_eq_length_filter]
    have hmemf : fila ∈ filas.filter (fun f => normCat f = "Sin categoría") :=
      List.mem_filter.mpr ⟨hmem, by simp [hnc]⟩
    refine ⟨hnc, hcount, ?_⟩
    rw [hcount]
    have := List.length_pos.mpr (List.ne_nil_of_mem hmemf)
    omega
  · have hns : normSub fila = "Sin subcategoría" :=
      normalizar_texto_of_blank _ _ hsub
    have hcount2 :
        Counter.getD
          (lookupD []
            (AgruparEstudios.agrupar_estudios filas).subcategorias
            (normCat fila)) "Sin subcategoría" =
        ((filas.filter (fun f => normCat f = normCat fila)).filter
          (fun f => normSub f = "Sin subcategoría")).length := by
      rw [AgruparEstudios.lookup_subcategorias, Counter.getD_buildFrom,
        count_map_eq_length_filter]
    have hmemf2 : fila ∈
        (filas.filter (fun f => normCat f = normCat fila)).filter
          (fun f => normSub f = "Sin subcategoría") :=
      List.mem_filter.mpr
        ⟨List.mem_filter.mpr ⟨hmem, by simp⟩, by simp [hns]⟩
    refine ⟨hns, hcount2, ?_⟩
    rw [hcount2]
    have := List.length_pos.mpr (List.ne_nil_of_mem hmemf2)
    omega
  · rw [AgruparEstudios.agrupar_categorias, Counter.total_buildFrom,
      List.length_map]

/-- Witness for C2 on two inputs: the spec's example row with blank
Category but named Subcategory "X", inside the three example rows; and a
record with a named Category "AI" but no Subcategory field, whose
placeholder subcategory bucket lives inside the "AI" category. -/
theorem C2_blank_placeholder_witness :
    (normCat [("Category", ""), ("Subcategory", "X")] = "Sin categoría" ∧
      1 ≤ Counter.getD
          (AgruparEstudios.agrupar_estudios filasEjemplo).categorias
          "Sin categoría") ∧
    (normSub [("Category", "AI")] = "Sin subcategoría" ∧
      1 ≤ Counter.getD
          (lookupD []
            (AgruparEstudios.agrupar_estudios
              [[("Category", "AI")]]).subcategorias
            (normCat [("Category", "AI")])) "Sin subcategoría") :=
  ⟨⟨((C2_blank_placeholder filasEjemplo
        [("Category", ""), ("Subcategory", "X")] (by decide)).1
      (by decide)).1,
    ((C2_blank_placeholder filasEjemplo
        [("Category", ""), ("Subcategory", "X")] (by decide)).1
      (by decide)).2.2⟩,
   ⟨((C2_blank_placeholder [[("Category", "AI")]] [("Category", "AI")]
        (by decide)).2.1 (by decide)).1,
    ((C2_blank_placeholder [[("Category", "AI")]] [("Category", "AI")]
        (by decide)).2.1 (by decide)).2.2⟩⟩

/-- Claim C3: the ordered view printed by `imprimir_resumen` lists
categories in descending count order; entries with equal counts keep the
counter's order, which is the first-seen order of categories in the input;
the same holds for the subcategory listing of every displayed category.
The view is a pure function of the input list, so it is deterministic for
a fixed input order (see C6). -/
theorem C3_ranking (filas : List Record) (c : String)
    (_hc : c ∈ (AgruparEstudios.agrupar_estudios filas).categorias.map
      Prod.fst) :
    (AgruparEstudios.imprimir_resumen_view
        (AgruparEstudios.agrupar_estudios filas)).1.Pairwise
      (fun a b => b.2 ≤ a.2) ∧
    (∀ n : Nat,
      (AgruparEstudios.imprimir_resumen_view
          (AgruparEstudios.agrupar_estudios filas)).1.filter
        (fun p => p.2 = n) =
      (AgruparEstudios.agrupar_estudios filas).categorias.filter
        (fun p => p.2 = n)) ∧
    (AgruparEstudios.agrupar_estudios filas).categorias.map Prod.fst =
      firstSeen (filas.map normCat) ∧
    (most_common (lookupD []
        (AgruparEstudios.agrupar_estudios filas).subcategorias c)).Pairwise
      (fun a b => b.2 ≤ a.2) ∧
    (∀ n : Nat,
      (most_common (lookupD []
          (AgruparEstudios.agrupar_estudios filas).subcategorias c)).filter
        (fun p => p.2 = n) =
      (lookupD []
          (AgruparEstudios.agrupar_estudios filas).subcategorias c).filter
        (fun p => p.2 = n)) ∧
    (lookupD []
        (AgruparEstudios.agrupar_estudios filas).subcategorias c).map
      Prod.fst =
      firstSeen ((filas.filter (fun f => normCat f = c)).map normSub) := by
  refine ⟨sorted_most_common _, fun n => filter_most_common _ n, ?_,
    sorted_most_common _, fun n => filter_most_common _ n, ?_⟩
  · rw [AgruparEstudios.agrupar_categorias, Counter.keys_buildFrom]
  · rw [AgruparEstudios.lookup_subcategorias, Counter.keys_buildFrom]

/-- Witness for C3 at the example rows and the category "AI". -/
theorem C3_ranking_witness :
    (AgruparEstudios.agrupar_estudios filasEjemplo).categorias.map Prod.fst =
      firstSeen (filasEjemplo.map normCat) :=
  (C3_ranking filasEjemplo "AI" (by decide)).2.2.1

/-- Claim C6: aggregation and the ranked views are deterministic — equal
inputs (same rows, same order) give equal outputs on any two runs. In the
embedding both scripts' aggregations are pure functions of the row list,
so this is function congruence. -/
theorem C6_deterministic (filas1 filas2 : List Record) (h : filas1 = filas2) :
    AgruparEstudios.agrupar_estudios filas1 =
      AgruparEstudios.agrupar_estudios filas2 ∧
    GraficoInteractivo.agrupar_estudios filas1 =
      GraficoInteractivo.agrupar_estudios filas2 ∧
    AgruparEstudios.imprimir_resumen_view
        (AgruparEstudios.agrupar_estudios filas1) =
      AgruparEstudios.imprimir_resumen_view
        (AgruparEstudios.agrupar_estudios filas2) := by
  subst h
  exact ⟨rfl, rfl, rfl⟩

/-- Witness for C6 at the example rows. -/
theorem C6_deterministic_witness :
    AgruparEstudios.agrupar_estudios filasEjemplo =
      AgruparEstudios.agrupar_estudios filasEjemplo :=
  (C6_deterministic filasEjemplo filasEjemplo rfl).1

/-- Claim C7: when the configured input file does not exist, both
`agrupar_estudios.py`'s `main` (through `leer_csv`) and
`contar_lineas.py`'s main block terminate with exit status 1; the `exit`
result is produced before any aggregation, counting, or output. -/
theorem C7_missing_file (fs : FS) (contar : String → RunResult Nat)
    (h : fs.existsFile "este_TCIM_195_scored_final.csv" = false) :
    AgruparEstudios.main fs = .exit 1 ∧
    ContarLineas.mainBlock fs contar = .exit 1 := by
  constructor
  · simp [AgruparEstudios.main, leer_csv, AgruparEstudios.CSV_FILE, h]
  · simp [ContarLineas.mainBlock, ContarLineas.ARCHIVO, h]

/-- Witness for C7 on the file system in which no path exists. -/
theorem C7_missing_file_witness :
    AgruparEstudios.main fsAusente = .exit 1 ∧
    ContarLineas.mainBlock fsAusente (fun _ => .ok 0) = .exit 1 :=
  C7_missing_file fsAusente (fun _ => .ok 0) rfl

/-- Claim C8: `leer_csv` tries the fixed encoding list in its given order,
each attempt decoding permissively with `errors="replace"` (replacement
characters instead of decode failures); it returns the rows of the first
attempt that does not raise, and when every attempt raises it exits with
status 1, `main` propagating the exit so no output file is written. -/
theorem C8_encodings (fs : FS)
    (hex : fs.existsFile AgruparEstudios.CSV_FILE = true) :
    (∀ enc filas,
        ENCODINGS.find?
            (fun e =>
              (fs.decodeReplace AgruparEstudios.CSV_FILE e).isSome) =
          some enc →
        fs.decodeReplace AgruparEstudios.CSV_FILE enc = some filas →
        leer_csv fs AgruparEstudios.CSV_FILE = .ok filas) ∧
    ((∀ enc ∈ ENCODINGS,
        fs.decodeReplace AgruparEstudios.CSV_FILE enc = none) →
      leer_csv fs AgruparEstudios.CSV_FILE = .exit 1 ∧
      AgruparEstudios.main fs = .exit 1) := by
  constructor
  · intro enc filas hfind hdec
    rw [leer_csv, if_pos hex]
    exact intentarCodificaciones_first_success fs _ ENCODINGS enc filas
      hfind hdec
  · intro hall
    have hl : leer_csv fs AgruparEstudios.CSV_FILE = .exit 1 := by
      rw [leer_csv, if_pos hex]
      exact intentarCodificaciones_all_fail fs _ ENCODINGS hall
    exact ⟨hl, by simp [AgruparEstudios.main, hl]⟩

/-- Witness for C8 on the file system in which the file exists but every
read attempt raises. -/
theorem C8_encodings_witness :
    leer_csv fsIlegible AgruparEstudios.CSV_FILE = .exit 1 ∧
    AgruparEstudios.main fsIlegible = .exit 1 :=
  (C8_encodings fsIlegible rfl).2 (fun _ _ => rfl)

/-- Claim C9: every key of the returned category and subcategory counters
is a non-empty string fixed by stripping (a trimmed non-blank field value
or a placeholder); consequently two records whose Category fields agree
after stripping surrounding whitespace normalize to the same category and
are counted in the same bucket (at least twice when both are present). -/
theorem C9_trimmed_keys (filas : List Record) (f1 f2 : Record)
    (v1 v2 : String)
    (h1 : getField f1 CATEGORY_FIELD = some v1)
    (h2 : getField f2 CATEGORY_FIELD = some v2)
    (hws : pyStrip v1 = pyStrip v2) :
    (∀ k ∈ (AgruparEstudios.agrupar_estudios filas).categorias.map Prod.fst,
        k ≠ "" ∧ pyStrip k = k) ∧
    (∀ c : String,
      ∀ k ∈ (lookupD []
          (AgruparEstudios.agrupar_estudios filas).subcategorias c).map
        Prod.fst,
        k ≠ "" ∧ pyStrip k = k) ∧
    normCat f1 = normCat f2 ∧
    2 ≤ Counter.getD
        (AgruparEstudios.agrupar_estudios (f1 :: f2 :: filas)).categorias
        (normCat f1) := by
  have hplc : ("Sin categoría" : String) ≠ "" ∧
      pyStrip "Sin categoría" = "Sin categoría" := by
    constructor <;> decide
  have hpls : ("Sin subcategoría" : String) ≠ "" ∧
      pyStrip "Sin subcategoría" = "Sin subcategoría" := by
    constructor <;> decide
  have heq : normCat f1 = normCat f2 := by
    by_cases hb : pyStrip v1 = ""
    · have hb2 : pyStrip v2 = "" := by rw [← hws]; exact hb
      simp [normCat, h1, h2, normalizar_texto, hb, hb2]
    · have hb2 : ¬ pyStrip v2 = "" := fun hh => hb (hws.trans hh)
      simp [normCat, h1, h2, normalizar_texto, hb, hb2, hws]
  refine ⟨?_, ?_, heq, ?_⟩
  · intro k hk
    rw [AgruparEstudios.agrupar_categorias, Counter.keys_buildFrom] at hk
    rcases List.mem_map.mp (mem_firstSeen _ _ hk) with ⟨f, _, rfl⟩
    exact normalizar_texto_trimmed _ _ hplc
  · intro c k hk
    rw [AgruparEstudios.lookup_subcategorias, Counter.keys_buildFrom] at hk
    rcases List.mem_map.mp (mem_firstSeen _ _ hk) with ⟨f, _, rfl⟩
    exact normalizar_texto_trimmed _ _ hpls
  · rw [AgruparEstudios.agrupar_categorias, Counter.getD_buildFrom]
    simp only [List.map_cons, List.count_cons]
    simp [heq]

/-- Witness for C9: two records whose Category values differ only in
surrounding whitespace land in the same bucket. -/
theorem C9_trimmed_keys_witness :
    normCat [("Category", " AI ")] = normCat [("Category", "AI")] ∧
    2 ≤ Counter.getD
        (AgruparEstudios.agrupar_estudios
          [[("Category", " AI ")], [("Category", "AI")]]).categorias
        (normCat [("Category", " AI ")]) :=
  (C9_trimmed_keys [] [("Category", " AI ")] [("Category", "AI")]
    " AI " "AI" rfl rfl (by decide)).2.2

/-- Claim C10: in the interactive script a record whose suitability field
is missing or blank increments the "Not applicable" bucket exactly as one
whose field literally reads "Not applicable": the two inputs produce
identical suitability mappings, indistinguishable in the returned counts. -/
theorem C10_suitability_placeholder (pre post : List Record)
    (f fNA : Record)
    (hcat : normCat f = normCat fNA)
    (hblank : isBlankField f SUITABILITY_FIELD = true)
    (hlit : getField fNA SUITABILITY_FIELD = some "Not applicable") :
    normSuit f = "Not applicable" ∧
    (GraficoInteractivo.agrupar_estudios (pre ++ f :: post)).suitability =
      (GraficoInteractivo.agrupar_estudios (pre ++ fNA :: post)).suitability := by
  have hf : normSuit f = "Not applicable" :=
    normalizar_texto_of_blank _ _ hblank
  have hfNA : normSuit fNA = "Not applicable" := by
    unfold normSuit
    rw [hlit]
    decide
  refine ⟨hf, GraficoInteractivo.suitability_eq_of_pairs _ _ ?_⟩
  simp [hcat, hf, hfNA]

/-- Witness for C10: the empty record versus a record carrying the literal
"Not applicable" suitability value. -/
theorem C10_suitability_placeholder_witness :
    normSuit ([] : Record) = "Not applicable" ∧
    (GraficoInteractivo.agrupar_estudios [([] : Record)]).suitability =
      (GraficoInteractivo.agrupar_estudios
        [[("TCIM_suitability_level", "Not applicable")]]).suitability :=
  C10_suitability_placeholder [] [] []
    [("TCIM_suitability_level", "Not applicable")] (by decide) rfl rfl
